import Mathlib

/-!
Formal model of the FXTrade_Dashboard broker-sync engine.

The definitions below are a shallow embedding of the Python sources:
  * `backend/src/routers/trades.py`   — `sync_trades`, `update_trade`, `delete_trade`
  * `backend/src/services/mt5_service.py` — `MT5Service.initialize`, `ensure_symbol`,
    `ServiceProxy`
  * `backend/src/routers/sessions.py` — `get_session_status`

Conventions of the embedding:
  * Prices, volumes and money amounts (Python floats) are modelled as exact
    rationals `ℚ`; times (Python `datetime`) as Unix seconds `ℤ`; the wall
    clock `datetime.now()` is passed in as an explicit `now : ℤ` parameter.
  * A SQLAlchemy `TradeLog` row is a record; the `trade_logs` table is a
    `List TradeLog` in insertion order.  `select(...).where(trade_id == k)`
    with `.scalar()` is `getRow` (first match); mutating the fetched ORM
    object is `updateFirst`; `db.add` of a fresh object is an append.
    The session autoflushes, so reads inside a pass see earlier writes;
    `db.commit()` at the end of a successful pass publishes the list, and an
    aborted pass leaves the committed table unchanged.
  * `Optional`/missing dict keys are `Option`; `dict.get(k, 0.0)` is
    `(·.getD 0)`; Python `str(x)` on an optional integer is `optIntStr`
    (giving the string "None" for `None`, as Python does).
  * `int(x.total_seconds() / 60)` truncates toward zero: `pySecToMin` uses
    `Int.div`, Lean's truncating division.
  * The `created_at` column (insert-time metadata with a database default,
    never read or written by any modelled code path) is omitted from the row.
-/

/-- Truncating division by 60 of a number of seconds, as Python's
`int(delta.total_seconds() / 60)` computes it. -/
def pySecToMin (s : Int) : Int := Int.tdiv s 60

/-- Python `str(x)` where `x : Optional[int]`: `str(None) = "None"`. -/
def optIntStr : Option Int → String
  | some n => toString n
  | none   => "None"

/-- A row of the `trade_logs` table (`models.py`, class `TradeLog`). -/
structure TradeLog where
  trade_id : String
  position_id : Option String
  entry_ticket : Option String
  exit_ticket : Option String
  timestamp : Option Int
  symbol : String
  direction : String
  entry_price : ℚ
  exit_price : Option ℚ
  position_size : ℚ
  profit_loss_pips : Option ℚ
  profit_loss_amount : Option ℚ
  trade_duration_minutes : Option Int
  pre_trade_confidence : Option Int
  post_trade_evaluation : Option String
  lessons_learned : Option String
  deriving DecidableEq, Repr

/-- A fresh ORM `TradeLog(trade_id=k)` object: all columns unset (`None`)
except the key and the `symbol` column default `"USDJPY"`. -/
def mkTrade (k : String) : TradeLog :=
  { trade_id := k, position_id := none, entry_ticket := none, exit_ticket := none,
    timestamp := none, symbol := "USDJPY", direction := "", entry_price := 0,
    exit_price := none, position_size := 0, profit_loss_pips := none,
    profit_loss_amount := none, trade_duration_minutes := none,
    pre_trade_confidence := none, post_trade_evaluation := none,
    lessons_learned := none }

/-- The ledger query `select(TradeLog).where(TradeLog.trade_id == k)` with
`.scalar()`: the first row with the given id. -/
def getRow (k : String) (L : List TradeLog) : Option TradeLog :=
  L.find? (fun t => t.trade_id == k)

/-- Mutating the ORM object returned by `getRow` in place: rewrite the first
row with the given id. -/
def updateFirst (L : List TradeLog) (k : String) (f : TradeLog → TradeLog) :
    List TradeLog :=
  match L with
  | [] => []
  | t :: ts => if t.trade_id = k then f t :: ts else t :: updateFirst ts k f

/-- `await db.delete(obj)` for the object returned by `getRow`: remove the
first row with the given id. -/
def eraseFirst (L : List TradeLog) (k : String) : List TradeLog :=
  match L with
  | [] => []
  | t :: ts => if t.trade_id = k then ts else t :: eraseFirst ts k

/-- An open-position dict as produced by `MT5Service.get_positions`
(`pos._asdict()` of a native position record, `time` converted to seconds).
Keys read with `.get` are `Option`; keys read with `[...]` are plain fields. -/
structure Position where
  position_id : Option Int
  ticket : Option Int
  volume : Option ℚ
  profit : Option ℚ
  swap : Option ℚ
  type : Int
  time : Int
  symbol : String
  price_open : ℚ
  deriving DecidableEq, Repr

/-- A deal dict as produced by `MT5Service.get_deals`. `entry` is the native
deal-entry code: `0` = IN (entry), `1` = OUT, `2` = OUT_BY. -/
structure Deal where
  ticket : Option Int
  position_id : Option Int
  entry : Option Int
  type : Int
  volume : Option ℚ
  price : ℚ
  time : Int
  profit : Option ℚ
  swap : Option ℚ
  commission : Option ℚ
  deriving DecidableEq, Repr

/-- `str(position_id if position_id is not None else pos.get('ticket'))`
(trades.py line 255). -/
def posKey (p : Position) : String :=
  match p.position_id with
  | some n => toString n
  | none   => optIntStr p.ticket

/-- `str(position_id if position_id is not None else deal.get('ticket'))`
(trades.py line 307). -/
def dealKey (d : Deal) : String :=
  match d.position_id with
  | some n => toString n
  | none   => optIntStr d.ticket

/-- The field writes of the open-position upsert (trades.py lines 276–286):
every assignment is absolute; note line 280 sets `exit_price` to `None`. -/
def posUpd (now : Int) (p : Position) (v : ℚ) (t : TradeLog) : TradeLog :=
  { t with
    timestamp := some p.time
    symbol := p.symbol
    direction := if p.type = 0 then "LONG" else "SHORT"
    entry_price := p.price_open
    exit_price := none
    position_size := v
    profit_loss_amount := some (p.profit.getD 0 + p.swap.getD 0)
    profit_loss_pips := some 0
    trade_duration_minutes := some (pySecToMin (now - p.time))
    position_id := p.position_id.map toString
    entry_ticket := p.ticket.map toString }

/-- One iteration of the open-position loop of `sync_trades`
(trades.py lines 252–288): skip on invalid volume, else upsert. -/
def processPosition (now : Int) (L : List TradeLog) (p : Position) :
    List TradeLog :=
  match p.volume with
  | none => L
  | some v =>
    if v = 0 then L
    else
      let k := posKey p
      match getRow k L with
      | some _ => updateFirst L k (posUpd now p v)
      | none   => L ++ [posUpd now p v (mkTrade k)]

/-- The field writes of the Entry-deal branch (trades.py lines 324–329). -/
def entryUpd (d : Deal) (v : ℚ) (t : TradeLog) : TradeLog :=
  { t with
    timestamp := some d.time
    direction := if d.type = 0 then "LONG" else "SHORT"
    entry_price := d.price
    position_size := v
    entry_ticket := some (optIntStr d.ticket)
    position_id := d.position_id.map toString }

/-- The field writes of the Exit-deal branch (trades.py lines 361–368):
`exit_price`, `profit_loss_amount` and (when the deal has a ticket)
`exit_ticket` are assigned; `trade_duration_minutes` is written only when the
row's current `timestamp` is set and strictly before the deal's time. -/
def exitUpd (d : Deal) (t : TradeLog) : TradeLog :=
  let t1 := { t with
    exit_price := some d.price
    profit_loss_amount :=
      some (d.profit.getD 0 + d.swap.getD 0 + d.commission.getD 0)
    exit_ticket := match d.ticket with
      | some tk => some (toString tk)
      | none    => t.exit_ticket }
  match t.timestamp with
  | some ts => if ts < d.time
      then { t1 with trade_duration_minutes := some (pySecToMin (d.time - ts)) }
      else t1
  | none => t1

/-- One iteration of the deal loop of `sync_trades` (trades.py lines
302–370).  The whole fetched batch `ds` is in scope because the Exit branch
searches it for a matching Entry deal (line 339). -/
def processDeal (ds : List Deal) (L : List TradeLog) (d : Deal) :
    List TradeLog :=
  let k := dealKey d
  let obj? := getRow k L
  if d.entry = some 0 then
    match d.volume with
    | none => L
    | some v =>
      if v = 0 then L
      else
        match obj? with
        | some _ => updateFirst L k (entryUpd d v)
        | none   => L ++ [entryUpd d v (mkTrade k)]
  else if d.entry = some 1 ∨ d.entry = some 2 then
    match obj? with
    | some _ => updateFirst L k (exitUpd d)
    | none   =>
      match ds.find? (fun e => e.position_id == d.position_id
                               && e.entry == some 0) with
      | none => L
      | some e =>
        match e.volume with
        | none => L
        | some ev =>
          if ev = 0 then L
          else L ++ [exitUpd d (entryUpd e ev (mkTrade k))]
  else L

/-- The open-position phase of a sync pass (trades.py lines 252–288). -/
def syncPositions (now : Int) (ps : List Position) (L : List TradeLog) :
    List TradeLog :=
  ps.foldl (processPosition now) L

/-- The deal phase of a sync pass (trades.py lines 302–370). -/
def syncDeals (ds : List Deal) (L : List TradeLog) : List TradeLog :=
  ds.foldl (processDeal ds) L

/-- One full sync pass over fetched snapshots: positions first, then deals. -/
def syncPass (now : Int) (ps : List Position) (ds : List Deal)
    (L : List TradeLog) : List TradeLog :=
  syncDeals ds (syncPositions now ps L)

/-- The `POST /trades/sync` endpoint (trades.py lines 231–379).  `none` for a
snapshot models `get_positions`/`get_deals` returning `None` (transport
failure): the handler raises HTTP 503, which the blanket `except Exception`
re-raises as HTTP 500, and nothing is committed.  On success the committed
ledger is the pass result and the response body is the trade list (there is
no updated/skipped count in the result).  Returns (caller-visible result,
committed ledger). -/
def sync_trades (now : Int) (positions? : Option (List Position))
    (deals? : Option (List Deal)) (L : List TradeLog) :
    Except Nat (List TradeLog) × List TradeLog :=
  match positions? with
  | none => (.error 500, L)
  | some ps =>
    match deals? with
    | none => (.error 500, L)
    | some ds =>
      let L' := syncPass now ps ds L
      (.ok L', L')

/-- Python truthiness of an optional string column: `None` and `""` are
falsy, every other string is truthy. -/
def pyTruthyOptStr : Option String → Bool
  | some s => !(s == "")
  | none   => false

/-- The request body of `PUT /trades/{id}` (`TradeLogCreate`, context
payloads omitted — they do not touch the `trade_logs` row fields below). -/
structure TradeLogCreate where
  symbol : String
  direction : String
  entry_price : ℚ
  position_size : ℚ
  pre_trade_confidence : Option Int
  exit_price : Option ℚ
  profit_loss_pips : Option ℚ
  profit_loss_amount : Option ℚ
  trade_duration_minutes : Option Int
  post_trade_evaluation : Option String
  lessons_learned : Option String
  deriving DecidableEq, Repr

/-- The `PUT /trades/{trade_id}` endpoint (trades.py lines 174–207):
404 when the row is missing, 403 when `position_id or entry_ticket` is
truthy (an MT5-synced trade), otherwise overwrite the editable fields.
Returns (result, committed ledger). -/
def update_trade (L : List TradeLog) (tid : String) (b : TradeLogCreate) :
    Except Nat (List TradeLog) × List TradeLog :=
  match getRow tid L with
  | none => (.error 404, L)
  | some t =>
    if pyTruthyOptStr t.position_id || pyTruthyOptStr t.entry_ticket then
      (.error 403, L)
    else
      let t' := { t with
        symbol := b.symbol
        direction := b.direction
        entry_price := b.entry_price
        position_size := b.position_size
        pre_trade_confidence := b.pre_trade_confidence
        exit_price := b.exit_price
        profit_loss_pips := b.profit_loss_pips
        profit_loss_amount := b.profit_loss_amount
        trade_duration_minutes := b.trade_duration_minutes
        post_trade_evaluation := b.post_trade_evaluation
        lessons_learned := b.lessons_learned }
      let L' := updateFirst L tid (fun _ => t')
      (.ok L', L')

/-- The `DELETE /trades/{trade_id}` endpoint (trades.py lines 209–229). -/
def delete_trade (L : List TradeLog) (tid : String) :
    Except Nat String × List TradeLog :=
  match getRow tid L with
  | none => (.error 404, L)
  | some t =>
    if pyTruthyOptStr t.position_id || pyTruthyOptStr t.entry_ticket then
      (.error 403, L)
    else
      (.ok "Trade deleted successfully", eraseFirst L tid)

/-- Python's substring test `pat in s`. -/
def strContains (s pat : String) : Bool :=
  decide (pat.toList <:+: s.toList)

/-- `ensure_symbol` (mt5_service.py lines 51–77).  `selectOk` is the outcome
of `mt5.symbol_select(name, True)`, `symbols` the names from
`mt5.symbols_get()` in terminal order.  The fallback scan looks for the
first name containing the literal substrings "USDJPY" and "JPY"
(case-sensitive, independent of the configured `sym`). -/
def ensure_symbol (selectOk : String → Bool) (symbols : List String)
    (sym : String) : String :=
  if selectOk sym then sym
  else
    match symbols.find? (fun s => strContains s "USDJPY"
                                  && strContains s "JPY") with
    | some m => if selectOk m then m else sym
    | none => sym

/-- Outcome of one native `mt5.initialize()` call. -/
inductive ConnectResult
  | ok
  | fail
  | timeout
  deriving DecidableEq, Repr

/-- The mutable state of `MT5Service` (mt5_service.py lines 19–22) plus an
instrumentation counter of native connect attempts.  The class keeps no
timestamp of past attempts and no backoff state. -/
structure MT5State where
  symbol : String
  connected : Bool
  nativeConnectCalls : Nat
  deriving DecidableEq, Repr

/-- One call of `MT5Service.initialize` (mt5_service.py lines 24–95): it
always performs exactly one native `mt5.initialize()` attempt; on native
failure or timeout it sets `connected = False` and returns `False`; on
success it runs `ensure_symbol` (non-timeout path), sets `connected = True`
and returns `True`. -/
def initOnce (selectOk : String → Bool) (symbols : List String)
    (s : MT5State) (r : ConnectResult) : Bool × MT5State :=
  let s1 := { s with nativeConnectCalls := s.nativeConnectCalls + 1 }
  match r with
  | .fail    => (false, { s1 with connected := false })
  | .timeout => (false, { s1 with connected := false })
  | .ok      =>
    (true, { s1 with
             connected := true
             symbol := ensure_symbol selectOk symbols s1.symbol })

/-- A sequence of `initialize()` calls.  Each list element is (call time in
seconds, native outcome the terminal would give).  The call time is carried
only to state claims about calls "within 60 seconds": the code ignores it.
Returns (final state, the boolean results in order). -/
def runInitCalls (selectOk : String → Bool) (symbols : List String)
    (s : MT5State) (calls : List (Int × ConnectResult)) :
    MT5State × List Bool :=
  match calls with
  | [] => (s, [])
  | (_, r) :: rest =>
    let (b, s') := initOnce selectOk symbols s r
    let (sF, bs) := runInitCalls selectOk symbols s' rest
    (sF, b :: bs)

/-- The attribute table of `ServiceProxy` (mt5_service.py lines 404–437),
the class of the `mt5_service` singleton: the methods it defines.  It has no
`__getattr__`, so any other attribute lookup raises `AttributeError`. -/
def serviceProxyMethods : List String :=
  ["__init__", "_ensure_impl", "initialize", "shutdown", "get_current_price",
   "get_historical_data", "get_deals", "get_positions"]

/-- Python attribute lookup on the `ServiceProxy` singleton. -/
def serviceProxyGetattr (name : String) : Option String :=
  if name ∈ serviceProxyMethods then some name else none

/-- The market-open probe of `GET /sessions/status` (sessions.py line 22):
it looks up `mt5_service.is_market_open` and calls it.  The lookup itself
raises `AttributeError` when the proxy has no such attribute, so the
endpoint errors instead of producing a boolean. -/
def get_session_status : Except String Bool :=
  match serviceProxyGetattr "is_market_open" with
  | some _ => .ok true
  | none => .error "AttributeError: ServiceProxy has no attribute is_market_open"

/-! ### Basic ledger lemmas -/

@[simp] theorem updateFirst_nil (k : String) (f : TradeLog → TradeLog) :
    updateFirst [] k f = [] := rfl

@[simp] theorem updateFirst_cons (t : TradeLog) (ts : List TradeLog)
    (k : String) (f : TradeLog → TradeLog) :
    updateFirst (t :: ts) k f
      = if t.trade_id = k then f t :: ts else t :: updateFirst ts k f := rfl

@[simp] theorem getRow_nil (k : String) : getRow k [] = none := rfl

theorem getRow_cons (k : String) (t : TradeLog) (ts : List TradeLog) :
    getRow k (t :: ts) = if t.trade_id = k then some t else getRow k ts := by
  by_cases h : t.trade_id = k
  · rw [if_pos h]
    exact List.find?_cons_of_pos _ (by simpa using h)
  · rw [if_neg h]
    exact List.find?_cons_of_neg _ (by simpa using h)

@[simp] theorem mkTrade_id (k : String) : (mkTrade k).trade_id = k := rfl

@[simp] theorem posUpd_id (now : Int) (p : Position) (v : ℚ) (t : TradeLog) :
    (posUpd now p v t).trade_id = t.trade_id := rfl

@[simp] theorem entryUpd_id (d : Deal) (v : ℚ) (t : TradeLog) :
    (entryUpd d v t).trade_id = t.trade_id := rfl

@[simp] theorem exitUpd_id (d : Deal) (t : TradeLog) :
    (exitUpd d t).trade_id = t.trade_id := by
  unfold exitUpd
  cases t.timestamp
  · rfl
  · dsimp only
    split <;> rfl

@[simp] theorem exitUpd_timestamp (d : Deal) (t : TradeLog) :
    (exitUpd d t).timestamp = t.timestamp := by
  unfold exitUpd
  cases t.timestamp
  · rfl
  · dsimp only
    split <;> rfl

theorem exitUpd_exit_price (d : Deal) (t : TradeLog) :
    (exitUpd d t).exit_price = some d.price := by
  unfold exitUpd
  cases t.timestamp
  · rfl
  · dsimp only
    split <;> rfl

theorem exitUpd_pnl (d : Deal) (t : TradeLog) :
    (exitUpd d t).profit_loss_amount
      = some (d.profit.getD 0 + d.swap.getD 0 + d.commission.getD 0) := by
  unfold exitUpd
  cases t.timestamp
  · rfl
  · dsimp only
    split <;> rfl

theorem exitUpd_exit_ticket (d : Deal) (t : TradeLog) :
    (exitUpd d t).exit_ticket = (match d.ticket with
      | some tk => some (toString tk)
      | none => t.exit_ticket) := by
  unfold exitUpd
  cases t.timestamp
  · rfl
  · dsimp only
    split <;> rfl

theorem exitUpd_duration (d : Deal) (t : TradeLog) :
    (exitUpd d t).trade_duration_minutes = (match t.timestamp with
      | some ts => if ts < d.time then some (pySecToMin (d.time - ts))
                   else t.trade_duration_minutes
      | none => t.trade_duration_minutes) := by
  unfold exitUpd
  cases htt : t.timestamp
  · rfl
  · dsimp only
    split <;> rfl

theorem getRow_append_none {k : String} {L : List TradeLog} (r : TradeLog)
    (h : getRow k L = none) :
    getRow k (L ++ [r]) = if r.trade_id = k then some r else none := by
  induction L with
  | nil => simp [getRow_cons]
  | cons a ts ih =>
    rw [getRow_cons] at h
    by_cases ha : a.trade_id = k
    · rw [if_pos ha] at h; exact absurd h (by simp)
    · rw [if_neg ha] at h
      rw [List.cons_append, getRow_cons, if_neg ha]
      exact ih h

theorem getRow_append_self {k : String} {L : List TradeLog} {r : TradeLog}
    (h : getRow k L = none) (hr : r.trade_id = k) :
    getRow k (L ++ [r]) = some r := by
  rw [getRow_append_none r h, if_pos hr]

theorem getRow_append_other {k : String} {L : List TradeLog} {r : TradeLog}
    (hr : r.trade_id ≠ k) :
    getRow k (L ++ [r]) = getRow k L := by
  induction L with
  | nil => simp [getRow_cons, hr]
  | cons a ts ih =>
    simp only [List.cons_append, getRow_cons, ih]

theorem updateFirst_append_none {k : String} {L : List TradeLog}
    (r : TradeLog) (f : TradeLog → TradeLog) (h : getRow k L = none) :
    updateFirst (L ++ [r]) k f
      = L ++ (if r.trade_id = k then [f r] else [r]) := by
  induction L with
  | nil => simp only [List.nil_append, updateFirst_cons, updateFirst_nil]
  | cons a ts ih =>
    rw [getRow_cons] at h
    by_cases ha : a.trade_id = k
    · rw [if_pos ha] at h; exact absurd h (by simp)
    · rw [if_neg ha] at h
      rw [List.cons_append, updateFirst_cons, if_neg ha, List.cons_append, ih h]

theorem updateFirst_append_self {k : String} {L : List TradeLog}
    {r : TradeLog} (f : TradeLog → TradeLog) (h : getRow k L = none)
    (hr : r.trade_id = k) :
    updateFirst (L ++ [r]) k f = L ++ [f r] := by
  rw [updateFirst_append_none r f h, if_pos hr]

theorem updateFirst_of_none {k : String} {L : List TradeLog}
    (f : TradeLog → TradeLog) (h : getRow k L = none) :
    updateFirst L k f = L := by
  induction L with
  | nil => rfl
  | cons a ts ih =>
    rw [getRow_cons] at h
    by_cases ha : a.trade_id = k
    · rw [if_pos ha] at h; exact absurd h (by simp)
    · rw [if_neg ha] at h
      rw [updateFirst_cons, if_neg ha, ih h]

theorem getRow_updateFirst_self {k : String} {L : List TradeLog}
    {t : TradeLog} (f : TradeLog → TradeLog) (h : getRow k L = some t)
    (hf : ∀ u, (f u).trade_id = u.trade_id) :
    getRow k (updateFirst L k f) = some (f t) := by
  induction L with
  | nil => simp at h
  | cons a ts ih =>
    rw [getRow_cons] at h
    by_cases ha : a.trade_id = k
    · rw [if_pos ha] at h
      injection h with h'
      subst h'
      rw [updateFirst_cons, if_pos ha, getRow_cons, if_pos (by rw [hf]; exact ha)]
    · rw [if_neg ha] at h
      rw [updateFirst_cons, if_neg ha, getRow_cons, if_neg ha]
      exact ih h

theorem getRow_updateFirst_other {k k' : String} {L : List TradeLog}
    (f : TradeLog → TradeLog) (hne : k' ≠ k)
    (hf : ∀ u, (f u).trade_id = u.trade_id) :
    getRow k (updateFirst L k' f) = getRow k L := by
  induction L with
  | nil => rfl
  | cons a ts ih =>
    by_cases ha : a.trade_id = k'
    · rw [updateFirst_cons, if_pos ha, getRow_cons, getRow_cons, hf]
      have : a.trade_id ≠ k := by rw [ha]; exact hne
      rw [if_neg this, if_neg this]
    · rw [updateFirst_cons, if_neg ha, getRow_cons, getRow_cons, ih]

/-! ### Step lemmas: how one loop iteration of `sync_trades` rewrites the ledger -/

theorem processPosition_skip {now : Int} {L : List TradeLog} {p : Position}
    (hv : p.volume = none ∨ p.volume = some 0) :
    processPosition now L p = L := by
  rcases hv with hv | hv <;> simp [processPosition, hv]

theorem processPosition_hit {now : Int} {L : List TradeLog} {p : Position}
    {v : ℚ} {t : TradeLog} (hv : p.volume = some v) (h0 : v ≠ 0)
    (ht : getRow (posKey p) L = some t) :
    processPosition now L p = updateFirst L (posKey p) (posUpd now p v) := by
  simp [processPosition, hv, h0, ht]

theorem processPosition_new {now : Int} {L : List TradeLog} {p : Position}
    {v : ℚ} (hv : p.volume = some v) (h0 : v ≠ 0)
    (hn : getRow (posKey p) L = none) :
    processPosition now L p = L ++ [posUpd now p v (mkTrade (posKey p))] := by
  simp [processPosition, hv, h0, hn]

theorem processDeal_entry_skip {ds : List Deal} {L : List TradeLog} {d : Deal}
    (he : d.entry = some 0) (hv : d.volume = none ∨ d.volume = some 0) :
    processDeal ds L d = L := by
  rcases hv with hv | hv <;> simp [processDeal, he, hv]

theorem processDeal_entry_hit {ds : List Deal} {L : List TradeLog} {d : Deal}
    {v : ℚ} {t : TradeLog} (he : d.entry = some 0) (hv : d.volume = some v)
    (h0 : v ≠ 0) (ht : getRow (dealKey d) L = some t) :
    processDeal ds L d = updateFirst L (dealKey d) (entryUpd d v) := by
  simp [processDeal, he, hv, h0, ht]

theorem processDeal_entry_new {ds : List Deal} {L : List TradeLog} {d : Deal}
    {v : ℚ} (he : d.entry = some 0) (hv : d.volume = some v) (h0 : v ≠ 0)
    (hn : getRow (dealKey d) L = none) :
    processDeal ds L d = L ++ [entryUpd d v (mkTrade (dealKey d))] := by
  simp [processDeal, he, hv, h0, hn]

theorem processDeal_exit_hit {ds : List Deal} {L : List TradeLog} {d : Deal}
    {t : TradeLog} (hx : d.entry = some 1 ∨ d.entry = some 2)
    (ht : getRow (dealKey d) L = some t) :
    processDeal ds L d = updateFirst L (dealKey d) (exitUpd d) := by
  rcases hx with h | h <;> simp [processDeal, h, ht]

theorem processDeal_exit_synth {ds : List Deal} {L : List TradeLog}
    {d e : Deal} {ev : ℚ} (hx : d.entry = some 1 ∨ d.entry = some 2)
    (hn : getRow (dealKey d) L = none)
    (hfind : ds.find? (fun q => q.position_id == d.position_id
                                && q.entry == some 0) = some e)
    (hev : e.volume = some ev) (h0 : ev ≠ 0) :
    processDeal ds L d = L ++ [exitUpd d (entryUpd e ev (mkTrade (dealKey d)))] := by
  rcases hx with h | h <;> simp [processDeal, h, hn, hfind, hev, h0]

theorem processDeal_exit_synth_skip {ds : List Deal} {L : List TradeLog}
    {d e : Deal} (hx : d.entry = some 1 ∨ d.entry = some 2)
    (hn : getRow (dealKey d) L = none)
    (hfind : ds.find? (fun q => q.position_id == d.position_id
                                && q.entry == some 0) = some e)
    (hev : e.volume = none ∨ e.volume = some 0) :
    processDeal ds L d = L := by
  rcases hx with h | h <;> rcases hev with hev | hev <;>
    simp [processDeal, h, hn, hfind, hev]

theorem processDeal_exit_orphan {ds : List Deal} {L : List TradeLog} {d : Deal}
    (hx : d.entry = some 1 ∨ d.entry = some 2)
    (hn : getRow (dealKey d) L = none)
    (hfind : ds.find? (fun q => q.position_id == d.position_id
                                && q.entry == some 0) = none) :
    processDeal ds L d = L := by
  rcases hx with h | h <;> simp [processDeal, h, hn, hfind]

theorem getRow_processPosition_other {now : Int} {L : List TradeLog}
    {p : Position} {k : String} (hk : posKey p ≠ k) :
    getRow k (processPosition now L p) = getRow k L := by
  cases hv : p.volume with
  | none => rw [processPosition_skip (Or.inl hv)]
  | some v =>
    by_cases h0 : v = 0
    · subst h0
      rw [processPosition_skip (Or.inr hv)]
    · cases hrow : getRow (posKey p) L with
      | some u =>
        rw [processPosition_hit hv h0 hrow]
        exact getRow_updateFirst_other _ hk (fun u => rfl)
      | none =>
        rw [processPosition_new hv h0 hrow]
        exact getRow_append_other (by simpa using hk)

theorem getRow_syncPositions_other {now : Int} {ps : List Position}
    {L : List TradeLog} {k : String} (hk : ∀ p ∈ ps, posKey p ≠ k) :
    getRow k (syncPositions now ps L) = getRow k L := by
  induction ps generalizing L with
  | nil => rfl
  | cons p rest ih =>
    have h1 : getRow k (processPosition now L p) = getRow k L :=
      getRow_processPosition_other (hk p (by simp))
    have h2 := ih (L := processPosition now L p) (fun q hq => hk q (by simp [hq]))
    calc getRow k (syncPositions now (p :: rest) L)
        = getRow k (syncPositions now rest (processPosition now L p)) := rfl
      _ = getRow k (processPosition now L p) := h2
      _ = getRow k L := h1

/-! ### Claim C1: the open-position phase and `exit_price` -/

/-- Input for the C1 counterexample: a closed ledger row (exit price set). -/
def c1Row : TradeLog :=
  { mkTrade "1000" with
      timestamp := some 100
      direction := "LONG"
      entry_price := 150
      position_size := 1/10
      exit_price := some (303/2)
      exit_ticket := some "8" }

/-- Input for the C1 counterexample: an open-position snapshot entry carrying
the same identifier `1000`. -/
def c1Pos : Position :=
  { position_id := some 1000, ticket := some 7, volume := some (1/10),
    profit := some 5, swap := some 0, type := 0, time := 50,
    symbol := "USDJPY", price_open := 150 }

/-- C1 is false on the code: a ledger Trade with `exit_price` already set
(`c1Row`, exit price 151.5) is processed against an open-position snapshot
containing the same identifier, and the position-upsert phase of the sync
pass (trades.py line 280, `obj.exit_price = None`) clears the `exit_price`
back to null — no Exit deal was involved. -/
theorem c1_counterexample :
    c1Row.exit_price = some (303/2) ∧
    (getRow "1000" (sync_trades 0 (some [c1Pos]) (some []) [c1Row]).2).map
        TradeLog.exit_price = some none := by
  with_unfolding_all decide

/-- C1 (amended): the position-upsert phase sets `exit_price` to null for
every identifier present in the snapshot with a valid volume — even for a
row that was already closed; only rows whose identifier is absent from the
snapshot are left untouched (a vanishing open position is never auto-closed,
and such rows' `exit_price` can then only change through an Exit deal). -/
theorem c1_amended (now : Int) (k : String) (ps : List Position)
    (L : List TradeLog) :
    ((∀ p ∈ ps, posKey p ≠ k) →
      getRow k (syncPositions now ps L) = getRow k L)
    ∧ (∀ (p : Position) (v : ℚ), p.volume = some v → v ≠ 0 →
        ∃ t, getRow (posKey p) (processPosition now L p) = some t ∧
          t.exit_price = none) := by
  constructor
  · intro hk
    exact getRow_syncPositions_other hk
  · intro p v hv h0
    cases hrow : getRow (posKey p) L with
    | some u =>
      refine ⟨posUpd now p v u, ?_, rfl⟩
      rw [processPosition_hit hv h0 hrow]
      exact getRow_updateFirst_self _ hrow (fun u => rfl)
    | none =>
      refine ⟨posUpd now p v (mkTrade (posKey p)), ?_, rfl⟩
      rw [processPosition_new hv h0 hrow]
      exact getRow_append_self hrow rfl

/-- Witness for `c1_amended` at concrete inputs: the snapshot `[c1Pos]`
(key "1000") leaves the row keyed "9999" untouched, and processing `c1Pos`
itself yields a row with `exit_price = none`. -/
theorem c1_amended_witness :
    (getRow "9999" (syncPositions 0 [c1Pos] [c1Row]) = getRow "9999" [c1Row])
    ∧ (∃ t, getRow (posKey c1Pos) (processPosition 0 [c1Row] c1Pos) = some t ∧
        t.exit_price = none) :=
  ⟨(c1_amended 0 "9999" [c1Pos] [c1Row]).1 (by with_unfolding_all decide),
   (c1_amended 0 "9999" [c1Pos] [c1Row]).2 c1Pos (1/10)
     (by with_unfolding_all decide) (by with_unfolding_all decide)⟩

/-! ### Claim C4: no backoff / circuit breaker in `initialize` -/

/-- C4 is false on the code: `MT5Service.initialize` keeps no timestamp of a
failed attempt and no backoff state, so a second call 10 seconds after a
failed first call performs a second native `mt5.initialize()` attempt (the
native-connect call count reaches 2, not 1), and its `False` comes from the
new attempt failing, not from a circuit breaker. -/
theorem c4_counterexample :
    (runInitCalls (fun _ => false) [] ⟨"USDJPY", false, 0⟩
        [(0, .fail), (10, .fail)]).2 = [false, false] ∧
    (runInitCalls (fun _ => false) [] ⟨"USDJPY", false, 0⟩
        [(0, .fail), (10, .fail)]).1.nativeConnectCalls = 2 ∧
    (10 : Int) - 0 < 60 := by
  decide

/-- C4 (amended): every `initialize()` call performs exactly one native
connect attempt, whatever the call times and previous outcomes are — there
is no `BackoffWait` state and no `retryInterval` comparison in the code. -/
theorem c4_amended (selectOk : String → Bool) (symbols : List String)
    (s : MT5State) (calls : List (Int × ConnectResult)) :
    (runInitCalls selectOk symbols s calls).1.nativeConnectCalls
      = s.nativeConnectCalls + calls.length := by
  induction calls generalizing s with
  | nil => rfl
  | cons c rest ih =>
    obtain ⟨tm, r⟩ := c
    cases r <;>
      simp [runInitCalls, initOnce, ih] <;> omega

/-! ### Claim C5: volume validation -/

/-- Input for the C5 counterexample: an open ledger row with id "7". -/
def c5Row : TradeLog :=
  { mkTrade "7" with
      timestamp := some 0
      direction := "LONG"
      entry_price := 150
      position_size := 1/10 }

/-- Input for the C5 counterexample: an Exit deal with `volume = 0`. -/
def c5Deal : Deal :=
  { ticket := some 5, position_id := some 7, entry := some 1, type := 1,
    volume := some 0, price := 303/2, time := 60, profit := some 1,
    swap := some 0, commission := some 0 }

/-- C5 is false on the code: the Exit-deal branch of `sync_trades` never
inspects the exit deal's own volume (trades.py lines 334–370 validate only
the Entry side), so an Exit deal with `volume = 0` matched to an existing
Trade is fully applied — here it flips the row's `exit_price` from null to
151.5 after a sync pass. -/
theorem c5_counterexample :
    c5Deal.volume = some 0 ∧
    (getRow "7" [c5Row]).map TradeLog.exit_price = some none ∧
    (getRow "7" (sync_trades 0 (some []) (some [c5Deal]) [c5Row]).2).map
        TradeLog.exit_price = some (some (303/2)) := by
  with_unfolding_all decide

/-- C5 (amended): the per-record volume guard covers Entry deals and open
positions only — a deal with `entry = 0` (Entry) whose volume is null or 0
leaves the ledger unchanged, as does such a position, and the skip is
per-record; Exit deals carry no volume validation (see the counterexample). -/
theorem c5_amended :
    (∀ (ds : List Deal) (L : List TradeLog) (d : Deal),
        d.entry = some 0 → (d.volume = none ∨ d.volume = some 0) →
        processDeal ds L d = L)
    ∧ (∀ (now : Int) (L : List TradeLog) (p : Position),
        (p.volume = none ∨ p.volume = some 0) →
        processPosition now L p = L) :=
  ⟨fun ds L d he hv => processDeal_entry_skip he hv,
   fun now L p hv => processPosition_skip hv⟩

/-- Witness for `c5_amended`: a zero-volume Entry deal and a zero-volume
position leave a concrete ledger unchanged. -/
theorem c5_amended_witness :
    processDeal [] [c5Row] { c5Deal with entry := some 0 } = [c5Row] ∧
    processPosition 0 [c5Row]
      { position_id := some 7, ticket := some 5, volume := some 0,
        profit := some 0, swap := some 0, type := 0, time := 0,
        symbol := "USDJPY", price_open := 150 } = [c5Row] :=
  ⟨c5_amended.1 [] [c5Row] _ rfl (Or.inr rfl),
   c5_amended.2 0 [c5Row] _ (Or.inr rfl)⟩

/-! ### Claim C6: what an Exit deal writes -/

/-- Entry deal of the spec's worked example: position 2000, LONG 0.2 lots at
151.00, time 0. -/
def c6Entry : Deal :=
  { ticket := some 21, position_id := some 2000, entry := some 0, type := 0,
    volume := some (1/5), price := 151, time := 0, profit := some 0,
    swap := some 0, commission := some 0 }

/-- Exit deal of the spec's worked example: 151.50, 120 s later, profit 10,
swap −0.2, commission −0.5. -/
def c6Exit : Deal :=
  { ticket := some 22, position_id := some 2000, entry := some 1, type := 1,
    volume := some (1/5), price := 303/2, time := 120, profit := some 10,
    swap := some (-1/5), commission := some (-1/2) }

/-- A second, later partial-close Exit deal for the same identifier with
profit 5 and no swap/commission. -/
def c6Exit2 : Deal :=
  { ticket := some 23, position_id := some 2000, entry := some 1, type := 1,
    volume := some (1/5), price := 152, time := 240, profit := some 5,
    swap := some 0, commission := some 0 }

/-- C6 is false on the code for repeated Exit deals: `profit_loss_amount` is
assigned, not accumulated (trades.py lines 362–363), so after a batch with
two Exit deals for id 2000 (components 9.3 and 5) the row holds 5 — the
last deal's own `profit + swap + commission` — not the summed 14.3. -/
theorem c6_counterexample :
    (getRow "2000"
        (sync_trades 0 (some []) (some [c6Entry, c6Exit, c6Exit2]) []).2).map
        TradeLog.profit_loss_amount = some (some 5) ∧
    ¬ (getRow "2000"
        (sync_trades 0 (some []) (some [c6Entry, c6Exit, c6Exit2]) []).2).map
        TradeLog.profit_loss_amount = some (some (143/10)) := by
  with_unfolding_all decide

/-- C6 (amended): an Exit deal matched to an existing Trade row sets
`exit_price` to the deal's price, sets `profit_loss_amount` to that single
deal's `profit + swap + commission` (missing components default to 0;
repeated Exit deals overwrite, last processed wins), sets `exit_ticket`
from the deal when its ticket is present (keeping the old value otherwise),
and writes `durationMinutes = (exitTime − entryTime)` in whole minutes only
when the row's entry timestamp is set and strictly before the deal time,
leaving the previous value (null if never set) otherwise. -/
theorem c6_amended (ds : List Deal) (L : List TradeLog) (d : Deal)
    (t : TradeLog) (hx : d.entry = some 1 ∨ d.entry = some 2)
    (ht : getRow (dealKey d) L = some t) :
    ∃ t', getRow (dealKey d) (processDeal ds L d) = some t' ∧
      t'.exit_price = some d.price ∧
      t'.profit_loss_amount
        = some (d.profit.getD 0 + d.swap.getD 0 + d.commission.getD 0) ∧
      t'.exit_ticket = (match d.ticket with
        | some tk => some (toString tk)
        | none => t.exit_ticket) ∧
      t'.trade_duration_minutes = (match t.timestamp with
        | some ts => if ts < d.time then some (pySecToMin (d.time - ts))
                     else t.trade_duration_minutes
        | none => t.trade_duration_minutes) := by
  refine ⟨exitUpd d t, ?_, exitUpd_exit_price d t, exitUpd_pnl d t,
    exitUpd_exit_ticket d t, exitUpd_duration d t⟩
  rw [processDeal_exit_hit hx ht]
  exact getRow_updateFirst_self _ ht (fun u => exitUpd_id d u)

/-- Witness for `c6_amended` at the spec's worked example: the Exit deal at
151.50 with profit 10, swap −0.2, commission −0.5 against the row created by
the Entry deal at 151.00 yields `realizedPnL = 9.3` and
`durationMinutes = 2`. -/
theorem c6_amended_witness :
    (∃ t', getRow (dealKey c6Exit)
        (processDeal [c6Entry, c6Exit]
          [entryUpd c6Entry (1/5) (mkTrade "2000")] c6Exit) = some t' ∧
      t'.exit_price = some c6Exit.price ∧
      t'.profit_loss_amount
        = some (c6Exit.profit.getD 0 + c6Exit.swap.getD 0
                + c6Exit.commission.getD 0) ∧
      t'.exit_ticket = (match c6Exit.ticket with
        | some tk => some (toString tk)
        | none => (entryUpd c6Entry (1/5) (mkTrade "2000")).exit_ticket) ∧
      t'.trade_duration_minutes
        = (match (entryUpd c6Entry (1/5) (mkTrade "2000")).timestamp with
          | some ts => if ts < c6Exit.time
                       then some (pySecToMin (c6Exit.time - ts))
                       else (entryUpd c6Entry (1/5)
                              (mkTrade "2000")).trade_duration_minutes
          | none => (entryUpd c6Entry (1/5)
                      (mkTrade "2000")).trade_duration_minutes)) ∧
    c6Exit.profit.getD 0 + c6Exit.swap.getD 0 + c6Exit.commission.getD 0
      = 93/10 ∧
    pySecToMin (c6Exit.time - 0) = 2 :=
  ⟨c6_amended [c6Entry, c6Exit] [entryUpd c6Entry (1/5) (mkTrade "2000")]
      c6Exit (entryUpd c6Entry (1/5) (mkTrade "2000")) (Or.inl rfl)
      (by with_unfolding_all decide),
   by with_unfolding_all decide, by decide⟩

/-! ### Claim C7: symbol fallback resolution -/

/-- C7 is false on the code: the fallback scan in `ensure_symbol` matches
the hard-coded, case-sensitive substring "USDJPY" (mt5_service.py line 59),
not "a case-insensitive match containing both currency codes".  The name
"USD_JPY" contains both currency codes "USD" and "JPY" and is selectable,
yet the scan rejects it and the originally configured symbol is kept. -/
theorem c7_counterexample :
    strContains "USD_JPY" "USD" = true ∧
    strContains "USD_JPY" "JPY" = true ∧
    ensure_symbol (fun s => s == "USD_JPY") ["USD_JPY"] "USDJPY"
      = "USDJPY" := by
  decide

/-- C7 (amended): when the configured symbol cannot be selected, the scan
walks the terminal's instrument list in order and looks for the literal
substrings "USDJPY" and "JPY" (case-sensitive, hard-coded rather than
derived from the configured pair); the first such name is selected if the
terminal accepts it, and the originally configured symbol is kept when the
scan finds nothing.  In particular "USDJPYm" is selected when "USDJPY" is
absent. -/
theorem c7_amended (sel : String → Bool) (symbols : List String)
    (sym m : String) (h0 : sel sym = false) :
    (symbols.find? (fun s => strContains s "USDJPY" && strContains s "JPY")
        = some m → sel m = true → ensure_symbol sel symbols sym = m)
    ∧ (symbols.find? (fun s => strContains s "USDJPY" && strContains s "JPY")
        = none → ensure_symbol sel symbols sym = sym) := by
  constructor
  · intro hf hm
    simp [ensure_symbol, h0, hf, hm]
  · intro hf
    simp [ensure_symbol, h0, hf]

/-- Witness for `c7_amended`: the spec's own scenario — "USDJPY" absent,
"USDJPYm" present — makes the scan select "USDJPYm"; with an empty
instrument list the configured symbol is kept. -/
theorem c7_amended_witness :
    ensure_symbol (fun s => s == "USDJPYm") ["EURUSD", "USDJPYm"] "USDJPY"
      = "USDJPYm" ∧
    ensure_symbol (fun s => s == "USDJPYm") [] "USDJPY" = "USDJPY" :=
  ⟨(c7_amended (fun s => s == "USDJPYm") ["EURUSD", "USDJPYm"] "USDJPY"
      "USDJPYm" (by decide)).1 (by decide) (by decide),
   (c7_amended (fun s => s == "USDJPYm") [] "USDJPY" "USDJPYm"
      (by decide)).2 (by decide)⟩

/-! ### Claim C8: `is_market_open` does not exist -/

/-- C8 names a code bug: `GET /sessions/status` calls
`mt5_service.is_market_open()` (sessions.py line 22), but the `ServiceProxy`
singleton defines no such method and has no `__getattr__`, so the attribute
lookup raises `AttributeError` on every request — the endpoint errors
instead of returning the fail-closed `False` that the caller and the spec
expect. -/
theorem c8_market_open_missing :
    serviceProxyGetattr "is_market_open" = none ∧
    get_session_status
      = .error "AttributeError: ServiceProxy has no attribute is_market_open" :=
  ⟨rfl, rfl⟩

/-! ### Claim C9: failure semantics and the shape of the sync result -/

/-- A zero-volume Entry deal: a record that a sync pass skips. -/
def c9SkippedDeal : Deal :=
  { ticket := some 30, position_id := some 41, entry := some 0, type := 0,
    volume := some 0, price := 150, time := 0, profit := some 0,
    swap := some 0, commission := some 0 }

/-- C9 is false on the code in its result-shape half: a pass that skipped
one invalid record returns exactly the same caller-visible result as a pass
over a batch with no invalid records — the success value is the trade list
and carries no `{updated, skipped}` counts, so the two cases are not
distinguished. -/
theorem c9_counterexample :
    c9SkippedDeal.volume = some 0 ∧
    sync_trades 0 (some []) (some [c9SkippedDeal]) []
      = sync_trades 0 (some []) (some []) [] := by
  constructor
  · rfl
  · rfl

/-- C9 (amended): a transport-level failure (`get_positions` or `get_deals`
returning `None`) aborts the whole pass — the caller gets a single HTTP
failure (the 503 is re-wrapped as 500 by the blanket handler) and the
committed ledger is unchanged, with no upsert committed; on success the
result is the synced trade list itself, with no skip count. -/
theorem c9_amended (now : Int) (L : List TradeLog) :
    (∀ ds?, sync_trades now none ds? L = (.error 500, L))
    ∧ (∀ ps, sync_trades now (some ps) none L = (.error 500, L))
    ∧ (∀ ps ds, sync_trades now (some ps) (some ds) L
        = (.ok (syncPass now ps ds L), syncPass now ps ds L)) :=
  ⟨fun _ => rfl, fun _ => rfl, fun _ _ => rfl⟩

/-! ### Claim C10: the MT5-synced guard on manual edit/delete -/

/-- A ledger row whose `position_id` is the empty string: non-null, but
falsy for Python's `or`. -/
def c10Row : TradeLog :=
  { mkTrade "9" with
      position_id := some ""
      direction := "LONG"
      entry_price := 1
      position_size := 1 }

/-- A request body for `PUT /trades/{id}`. -/
def c10Body : TradeLogCreate :=
  { symbol := "USDJPY", direction := "SHORT", entry_price := 2,
    position_size := 1, pre_trade_confidence := none, exit_price := none,
    profit_loss_pips := none, profit_loss_amount := none,
    trade_duration_minutes := none, post_trade_evaluation := none,
    lessons_learned := none }

/-- C10 is false on the code as stated: the guard is Python truthiness
(`if existing_trade.position_id or existing_trade.entry_ticket`), so a row
whose `position_id` is the non-null empty string "" is *not* rejected with
403 — both update and delete go through (the delete empties the ledger). -/
theorem c10_counterexample :
    c10Row.position_id ≠ none ∧
    (update_trade [c10Row] "9" c10Body).1.isOk = true ∧
    (delete_trade [c10Row] "9").1.isOk = true ∧
    (delete_trade [c10Row] "9").2 = [] := by
  with_unfolding_all decide

/-- C10 (amended): for a found row the 403 guard fires exactly when
`position_id` or `entry_ticket` is a truthy (non-null, non-empty) string —
in that case both update and delete fail with 403 and the committed ledger
is unchanged; when both are falsy the operations succeed.  Values written by
the sync pass are `str()` of integers, hence never empty, so for every
broker-synced row the guard behaves as the claim states. -/
theorem c10_amended (L : List TradeLog) (tid : String) (t : TradeLog)
    (b : TradeLogCreate) (ht : getRow tid L = some t) :
    ((pyTruthyOptStr t.position_id || pyTruthyOptStr t.entry_ticket) = true →
      update_trade L tid b = (.error 403, L) ∧
      delete_trade L tid = (.error 403, L))
    ∧ ((pyTruthyOptStr t.position_id || pyTruthyOptStr t.entry_ticket) = false →
      (update_trade L tid b).1.isOk = true ∧
      (delete_trade L tid).1.isOk = true) := by
  constructor
  · intro h
    constructor <;> simp [update_trade, delete_trade, ht, h]
  · intro h
    constructor <;>
      simp [update_trade, delete_trade, ht, h, Except.isOk, Except.toBool]

/-- A genuinely broker-synced row: `position_id` and `entry_ticket` as the
sync pass writes them (string forms of integers). -/
def c10Synced : TradeLog :=
  { mkTrade "5" with
      position_id := some "123"
      entry_ticket := some "77"
      direction := "LONG"
      entry_price := 1
      position_size := 1 }

/-- Witness for `c10_amended`: the synced row is rejected with 403 by both
operations; a manual row (both fields null) passes both. -/
theorem c10_amended_witness :
    (update_trade [c10Synced] "5" c10Body = (.error 403, [c10Synced]) ∧
     delete_trade [c10Synced] "5" = (.error 403, [c10Synced])) ∧
    ((update_trade [mkTrade "6"] "6" c10Body).1.isOk = true ∧
     (delete_trade [mkTrade "6"] "6").1.isOk = true) :=
  ⟨(c10_amended [c10Synced] "5" c10Synced c10Body (by decide)).1 (by decide),
   (c10_amended [mkTrade "6"] "6" (mkTrade "6") c10Body (by decide)).2
     (by decide)⟩

/-! ### Replay lemmas: how re-applied field writes compose.
The deal/position writes are absolute except that the Exit write reads the
row's current `timestamp` (for the duration) and current `exit_ticket`
(when the deal has no ticket); these lemmas show the compositions arising
from re-running or reordering a one-position/one-entry/one-exit snapshot
collapse. -/

theorem entryUpd_absorb (e x : Deal) (v : ℚ) (m : TradeLog) :
    entryUpd e v (exitUpd x (entryUpd e v m)) = exitUpd x (entryUpd e v m) := by
  unfold exitUpd entryUpd
  dsimp only
  by_cases hlt : e.time < x.time <;> cases hxt : x.ticket <;>
    first
      | rfl
      | simp [hlt]

theorem exitUpd_idem (x : Deal) (t : TradeLog) :
    exitUpd x (exitUpd x t) = exitUpd x t := by
  obtain ⟨tid, pid, et, xt, ts, sym, dir, ep, xp, sz, pips, pnl, dur, cf, pe, ll⟩ := t
  unfold exitUpd
  cases ts with
  | none => cases hxt : x.ticket <;> rfl
  | some τ =>
    dsimp only
    by_cases hlt : τ < x.time <;> cases hxt : x.ticket <;>
      first
        | rfl
        | simp [hlt]

theorem replay_XQ (now : Int) (p : Position) (x : Deal) (pv : ℚ)
    (t : TradeLog) :
    exitUpd x (posUpd now p pv (exitUpd x (posUpd now p pv t)))
      = exitUpd x (posUpd now p pv t) := by
  unfold exitUpd posUpd
  dsimp only
  by_cases hlt : p.time < x.time <;> cases hxt : x.ticket <;>
    first
      | rfl
      | simp [hlt]

theorem replay_XEQ (now : Int) (p : Position) (e x : Deal) (pv v : ℚ)
    (t : TradeLog) :
    exitUpd x (entryUpd e v (posUpd now p pv
        (exitUpd x (entryUpd e v (posUpd now p pv t)))))
      = exitUpd x (entryUpd e v (posUpd now p pv t)) := by
  unfold exitUpd entryUpd posUpd
  dsimp only
  by_cases hlt : e.time < x.time <;> cases hxt : x.ticket <;>
    first
      | rfl
      | simp [hlt]

theorem replay_EXQ (now : Int) (p : Position) (e x : Deal) (pv v : ℚ)
    (t : TradeLog) :
    entryUpd e v (exitUpd x (posUpd now p pv
        (entryUpd e v (exitUpd x (posUpd now p pv t)))))
      = entryUpd e v (exitUpd x (posUpd now p pv t)) := by
  unfold exitUpd entryUpd posUpd
  dsimp only
  by_cases hlt : p.time < x.time <;> cases hxt : x.ticket <;>
    first
      | rfl
      | simp [hlt]

/-! ### Claim C3: deal-order independence -/

/-- Entry deal for the C3 counterexample (position 1, 0.2 lots at 151). -/
def c3Entry : Deal :=
  { ticket := some 31, position_id := some 1, entry := some 0, type := 0,
    volume := some (1/5), price := 151, time := 0, profit := some 0,
    swap := some 0, commission := some 0 }

/-- First partial-close Exit deal for the C3 counterexample. -/
def c3Exit1 : Deal :=
  { ticket := some 32, position_id := some 1, entry := some 1, type := 1,
    volume := some (1/10), price := 303/2, time := 60, profit := some 10,
    swap := some 0, commission := some 0 }

/-- Second partial-close Exit deal for the C3 counterexample. -/
def c3Exit2 : Deal :=
  { ticket := some 33, position_id := some 1, entry := some 1, type := 1,
    volume := some (1/10), price := 152, time := 120, profit := some 5,
    swap := some 0, commission := some 0 }

/-- C3 is false on the code: with two Exit deals for the same identifier
(a partial close), the Exit writes are last-wins assignments, so reversing
the batch changes which deal's `exit_price`/`profit_loss_amount` survive —
forward order ends at (152, 5), reversed order at (151.5, 10). -/
theorem c3_counterexample :
    [c3Exit2, c3Exit1, c3Entry] = ([c3Entry, c3Exit1, c3Exit2] : List Deal).reverse ∧
    (sync_trades 0 (some []) (some [c3Entry, c3Exit1, c3Exit2]) []).2
      ≠ (sync_trades 0 (some []) (some [c3Exit2, c3Exit1, c3Entry]) []).2 := by
  with_unfolding_all decide

/-- C3 (amended): for a batch holding one Entry deal and one matching Exit
deal for a single identifier with no pre-existing ledger row, the two orders
produce identical ledgers: in the Exit-first order the missing Trade is
synthesized from the Entry deal found in the same batch, and the later
Entry processing refreshes the same fields.  (With repeated Exit deals for
an identifier, reversal is not sound — see the counterexample.) -/
theorem c3_amended (now : Int) (e x : Deal) (pid : Int) (L : List TradeLog)
    (he : e.entry = some 0) (hx : x.entry = some 1 ∨ x.entry = some 2)
    (hpe : e.position_id = some pid) (hpx : x.position_id = some pid)
    (hL : getRow (toString pid) L = none) :
    (sync_trades now (some []) (some [e, x]) L).2
      = (sync_trades now (some []) (some [x, e]) L).2 := by
  have hke : dealKey e = toString pid := by simp [dealKey, hpe]
  have hkx : dealKey x = toString pid := by simp [dealKey, hpx]
  have hLe : getRow (dealKey e) L = none := by rw [hke]; exact hL
  have hLx : getRow (dealKey x) L = none := by rw [hkx]; exact hL
  have hfind1 : [e, x].find? (fun q => q.position_id == x.position_id
      && q.entry == some 0) = some e := by
    simp [hpe, hpx, he]
  have hfind2 : [x, e].find? (fun q => q.position_id == x.position_id
      && q.entry == some 0) = some e := by
    rcases hx with h | h <;> simp [hpe, hpx, he, h]
  show syncDeals [e, x] L = syncDeals [x, e] L
  show processDeal [e, x] (processDeal [e, x] L e) x
    = processDeal [x, e] (processDeal [x, e] L x) e
  cases hev : e.volume with
  | none =>
    rw [processDeal_entry_skip he (Or.inl hev),
        processDeal_exit_synth_skip hx hLx hfind1 (Or.inl hev),
        processDeal_exit_synth_skip hx hLx hfind2 (Or.inl hev),
        processDeal_entry_skip he (Or.inl hev)]
  | some v =>
    by_cases h0 : v = 0
    · subst h0
      rw [processDeal_entry_skip he (Or.inr hev),
          processDeal_exit_synth_skip hx hLx hfind1 (Or.inr hev),
          processDeal_exit_synth_skip hx hLx hfind2 (Or.inr hev),
          processDeal_entry_skip he (Or.inr hev)]
    · -- Entry-first order
      rw [processDeal_entry_new he hev h0 hLe]
      have hid1 : (entryUpd e v (mkTrade (dealKey e))).trade_id = dealKey x := by
        simp [hke, hkx]
      have hrow1 : getRow (dealKey x)
          (L ++ [entryUpd e v (mkTrade (dealKey e))])
          = some (entryUpd e v (mkTrade (dealKey e))) :=
        getRow_append_self hLx hid1
      rw [processDeal_exit_hit hx hrow1,
          updateFirst_append_self _ hLx hid1]
      -- Exit-first order
      rw [processDeal_exit_synth hx hLx hfind2 hev h0]
      have hid2 : (exitUpd x (entryUpd e v (mkTrade (dealKey x)))).trade_id
          = dealKey e := by
        rw [exitUpd_id, entryUpd_id, mkTrade_id, hke, hkx]
      have hrow2 : getRow (dealKey e)
          (L ++ [exitUpd x (entryUpd e v (mkTrade (dealKey x)))])
          = some (exitUpd x (entryUpd e v (mkTrade (dealKey x)))) :=
        getRow_append_self hLe hid2
      rw [processDeal_entry_hit he hev h0 hrow2,
          updateFirst_append_self _ hLe hid2,
          hke, hkx, entryUpd_absorb]

/-- Witness for `c3_amended`: a concrete Entry/Exit pair for id 4000 —
the Exit-before-Entry order yields the same ledger as Entry-first. -/
theorem c3_amended_witness :
    (sync_trades 0 (some [])
        (some [{ c3Entry with position_id := some 4000 },
               { c3Exit1 with position_id := some 4000 }]) []).2
      = (sync_trades 0 (some [])
          (some [{ c3Exit1 with position_id := some 4000 },
                 { c3Entry with position_id := some 4000 }]) []).2 :=
  c3_amended 0 _ _ 4000 [] rfl (Or.inl rfl) rfl rfl rfl

/-! ### Evaluation of a one-entry/one-exit batch over a fresh or
one-row-appended ledger, in both orders. -/

theorem syncDeals_pair_append (e x : Deal) (v : ℚ) (M : List TradeLog)
    (r : TradeLog) (k : String)
    (he : e.entry = some 0) (hx : x.entry = some 1 ∨ x.entry = some 2)
    (hke : dealKey e = k) (hkx : dealKey x = k)
    (hM : getRow k M = none) (hr : r.trade_id = k)
    (hev : e.volume = some v) (h0 : v ≠ 0) :
    syncDeals [e, x] (M ++ [r]) = M ++ [exitUpd x (entryUpd e v r)] ∧
    syncDeals [x, e] (M ++ [r]) = M ++ [entryUpd e v (exitUpd x r)] := by
  have hMe : getRow (dealKey e) M = none := by rw [hke]; exact hM
  have hMx : getRow (dealKey x) M = none := by rw [hkx]; exact hM
  have hre : r.trade_id = dealKey e := by rw [hke]; exact hr
  have hrx : r.trade_id = dealKey x := by rw [hkx]; exact hr
  constructor
  · show processDeal [e, x] (processDeal [e, x] (M ++ [r]) e) x
      = M ++ [exitUpd x (entryUpd e v r)]
    rw [processDeal_entry_hit he hev h0 (getRow_append_self hMe hre),
        updateFirst_append_self _ hMe hre]
    have hrx2 : (entryUpd e v r).trade_id = dealKey x := by simp [hr, hkx]
    rw [processDeal_exit_hit hx (getRow_append_self hMx hrx2),
        updateFirst_append_self _ hMx hrx2]
  · show processDeal [x, e] (processDeal [x, e] (M ++ [r]) x) e
      = M ++ [entryUpd e v (exitUpd x r)]
    rw [processDeal_exit_hit hx (getRow_append_self hMx hrx),
        updateFirst_append_self _ hMx hrx]
    have hre2 : (exitUpd x r).trade_id = dealKey e := by simp [hr, hke]
    rw [processDeal_entry_hit he hev h0 (getRow_append_self hMe hre2),
        updateFirst_append_self _ hMe hre2]

theorem syncDeals_pair_append_skip (e x : Deal) (M : List TradeLog)
    (r : TradeLog) (k : String)
    (he : e.entry = some 0) (hx : x.entry = some 1 ∨ x.entry = some 2)
    (hke : dealKey e = k) (hkx : dealKey x = k)
    (hM : getRow k M = none) (hr : r.trade_id = k)
    (hev : e.volume = none ∨ e.volume = some 0) :
    syncDeals [e, x] (M ++ [r]) = M ++ [exitUpd x r] ∧
    syncDeals [x, e] (M ++ [r]) = M ++ [exitUpd x r] := by
  have hMe : getRow (dealKey e) M = none := by rw [hke]; exact hM
  have hMx : getRow (dealKey x) M = none := by rw [hkx]; exact hM
  have hre : r.trade_id = dealKey e := by rw [hke]; exact hr
  have hrx : r.trade_id = dealKey x := by rw [hkx]; exact hr
  constructor
  · show processDeal [e, x] (processDeal [e, x] (M ++ [r]) e) x
      = M ++ [exitUpd x r]
    rw [processDeal_entry_skip he hev,
        processDeal_exit_hit hx (getRow_append_self hMx hrx),
        updateFirst_append_self _ hMx hrx]
  · show processDeal [x, e] (processDeal [x, e] (M ++ [r]) x) e
      = M ++ [exitUpd x r]
    rw [processDeal_exit_hit hx (getRow_append_self hMx hrx),
        updateFirst_append_self _ hMx hrx,
        processDeal_entry_skip he hev]

theorem syncDeals_pair_fresh (e x : Deal) (v : ℚ) (M : List TradeLog)
    (k : String)
    (he : e.entry = some 0) (hx : x.entry = some 1 ∨ x.entry = some 2)
    (hke : dealKey e = k) (hkx : dealKey x = k)
    (hfind1 : [e, x].find? (fun q => q.position_id == x.position_id
        && q.entry == some 0) = some e)
    (hfind2 : [x, e].find? (fun q => q.position_id == x.position_id
        && q.entry == some 0) = some e)
    (hM : getRow k M = none) (hev : e.volume = some v) (h0 : v ≠ 0) :
    syncDeals [e, x] M = M ++ [exitUpd x (entryUpd e v (mkTrade k))] ∧
    syncDeals [x, e] M
      = M ++ [entryUpd e v (exitUpd x (entryUpd e v (mkTrade k)))] := by
  have hMe : getRow (dealKey e) M = none := by rw [hke]; exact hM
  have hMx : getRow (dealKey x) M = none := by rw [hkx]; exact hM
  constructor
  · show processDeal [e, x] (processDeal [e, x] M e) x
      = M ++ [exitUpd x (entryUpd e v (mkTrade k))]
    rw [processDeal_entry_new he hev h0 hMe]
    have hid : (entryUpd e v (mkTrade (dealKey e))).trade_id = dealKey x := by
      simp [hke, hkx]
    rw [processDeal_exit_hit hx (getRow_append_self hMx hid),
        updateFirst_append_self _ hMx hid, hke]
  · show processDeal [x, e] (processDeal [x, e] M x) e
      = M ++ [entryUpd e v (exitUpd x (entryUpd e v (mkTrade k)))]
    rw [processDeal_exit_synth hx hMx hfind2 hev h0]
    have hid : (exitUpd x (entryUpd e v (mkTrade (dealKey x)))).trade_id
        = dealKey e := by
      simp [hke, hkx]
    rw [processDeal_entry_hit he hev h0 (getRow_append_self hMe hid),
        updateFirst_append_self _ hMe hid, hkx]

theorem syncDeals_pair_fresh_skip (e x : Deal) (M : List TradeLog)
    (k : String)
    (he : e.entry = some 0) (hx : x.entry = some 1 ∨ x.entry = some 2)
    (hke : dealKey e = k) (hkx : dealKey x = k)
    (hfind1 : [e, x].find? (fun q => q.position_id == x.position_id
        && q.entry == some 0) = some e)
    (hfind2 : [x, e].find? (fun q => q.position_id == x.position_id
        && q.entry == some 0) = some e)
    (hM : getRow k M = none)
    (hev : e.volume = none ∨ e.volume = some 0) :
    syncDeals [e, x] M = M ∧ syncDeals [x, e] M = M := by
  have hMx : getRow (dealKey x) M = none := by rw [hkx]; exact hM
  constructor
  · show processDeal [e, x] (processDeal [e, x] M e) x = M
    rw [processDeal_entry_skip he hev,
        processDeal_exit_synth_skip hx hMx hfind1 hev]
  · show processDeal [x, e] (processDeal [x, e] M x) e = M
    rw [processDeal_exit_synth_skip hx hMx hfind2 hev,
        processDeal_entry_skip he hev]

theorem replay_XE (e x : Deal) (v : ℚ) (m : TradeLog) :
    exitUpd x (entryUpd e v (exitUpd x (entryUpd e v m)))
      = exitUpd x (entryUpd e v m) := by
  rw [entryUpd_absorb, exitUpd_idem]

theorem replay_EX (e x : Deal) (v : ℚ) (m : TradeLog) :
    entryUpd e v (exitUpd x (entryUpd e v (exitUpd x (entryUpd e v m))))
      = entryUpd e v (exitUpd x (entryUpd e v m)) := by
  rw [entryUpd_absorb, entryUpd_absorb, exitUpd_idem]

theorem syncDeals_pair_idem (e x : Deal) (M : List TradeLog) (k : String)
    (he : e.entry = some 0) (hx : x.entry = some 1 ∨ x.entry = some 2)
    (hke : dealKey e = k) (hkx : dealKey x = k)
    (hfind1 : [e, x].find? (fun q => q.position_id == x.position_id
        && q.entry == some 0) = some e)
    (hfind2 : [x, e].find? (fun q => q.position_id == x.position_id
        && q.entry == some 0) = some e)
    (hM : getRow k M = none) :
    syncDeals [e, x] (syncDeals [e, x] M) = syncDeals [e, x] M ∧
    syncDeals [x, e] (syncDeals [x, e] M) = syncDeals [x, e] M := by
  cases hev : e.volume with
  | none =>
    obtain ⟨h1, h2⟩ := syncDeals_pair_fresh_skip e x M k he hx hke hkx
      hfind1 hfind2 hM (Or.inl hev)
    constructor <;> simp only [h1, h2]
  | some v =>
    by_cases h0 : v = 0
    · subst h0
      obtain ⟨h1, h2⟩ := syncDeals_pair_fresh_skip e x M k he hx hke hkx
        hfind1 hfind2 hM (Or.inr hev)
      constructor <;> simp only [h1, h2]
    · obtain ⟨h1, h2⟩ := syncDeals_pair_fresh e x v M k he hx hke hkx
        hfind1 hfind2 hM hev h0
      constructor
      · rw [h1,
          (syncDeals_pair_append e x v M _ k he hx hke hkx hM
            (by simp [hke]) hev h0).1,
          replay_XE]
      · rw [h2,
          (syncDeals_pair_append e x v M _ k he hx hke hkx hM
            (by simp [hke]) hev h0).2,
          replay_EX]

/-! ### Claim C2: idempotence of the sync pass -/

/-- C2 counterexample input: an Exit deal that precedes two Entry deals of
the same identifier in the fetched batch (late/duplicate delivery with
different entry times). -/
def c2Exit : Deal :=
  { ticket := some 40, position_id := some 1, entry := some 1, type := 1,
    volume := some (1/10), price := 303/2, time := 500, profit := some 10,
    swap := some 0, commission := some 0 }

/-- First Entry deal (time 100) for the C2 counterexample. -/
def c2Entry1 : Deal :=
  { ticket := some 41, position_id := some 1, entry := some 0, type := 0,
    volume := some (1/10), price := 151, time := 100, profit := some 0,
    swap := some 0, commission := some 0 }

/-- Second Entry deal (time 200) for the C2 counterexample. -/
def c2Entry2 : Deal :=
  { ticket := some 42, position_id := some 1, entry := some 0, type := 0,
    volume := some (1/10), price := 151, time := 200, profit := some 0,
    swap := some 0, commission := some 0 }

/-- C2 is false on the code: the duration write of the Exit branch
(trades.py lines 367–368) reads the row's *current* timestamp, which is not
a function of `(tradeId, fields)`.  Batch `[Exit t=500, Entry t=100,
Entry t=200]`: the first run synthesizes the row from the first Entry deal
(timestamp 100) and writes duration 6 minutes; the second run finds the row
with the final timestamp 200 and rewrites duration to 5 minutes — the
ledgers after run one and run two differ. -/
theorem c2_counterexample :
    (getRow "1" (sync_trades 0 (some [])
        (some [c2Exit, c2Entry1, c2Entry2]) []).2).map
        TradeLog.trade_duration_minutes = some (some 6) ∧
    (getRow "1" (sync_trades 0 (some []) (some [c2Exit, c2Entry1, c2Entry2])
        ((sync_trades 0 (some []) (some [c2Exit, c2Entry1, c2Entry2]) []).2)).2).map
        TradeLog.trade_duration_minutes = some (some 5) ∧
    (sync_trades 0 (some []) (some [c2Exit, c2Entry1, c2Entry2])
        ((sync_trades 0 (some []) (some [c2Exit, c2Entry1, c2Entry2]) []).2)).2
      ≠ (sync_trades 0 (some []) (some [c2Exit, c2Entry1, c2Entry2]) []).2 := by
  with_unfolding_all decide

/-- C2 (amended): a second run of `sync()` against the identical snapshots
reproduces the first run's ledger exactly for snapshots in which each
identifier carries at most one open position, at most one Entry deal and at
most one Exit deal and has no pre-existing ledger row — every write is then
replayed with identical values (formalised here for a single-identifier
snapshot, in either deal order, over an arbitrary ledger free of that
identifier).  In general idempotence fails only through the duration write,
which reads the row's current timestamp (see the counterexample). -/
theorem c2_amended (now : Int) (p : Position) (e x : Deal) (pid : Int)
    (ps : List Position) (ds : List Deal) (L : List TradeLog)
    (hps : ps = [p] ∨ ps = []) (hds : ds = [e, x] ∨ ds = [x, e])
    (he : e.entry = some 0) (hx : x.entry = some 1 ∨ x.entry = some 2)
    (hpe : e.position_id = some pid) (hpx : x.position_id = some pid)
    (hpp : p.position_id = some pid)
    (hL : getRow (toString pid) L = none) :
    (sync_trades now (some ps) (some ds)
        ((sync_trades now (some ps) (some ds) L).2)).2
      = (sync_trades now (some ps) (some ds) L).2 := by
  have hke : dealKey e = toString pid := by simp [dealKey, hpe]
  have hkx : dealKey x = toString pid := by simp [dealKey, hpx]
  have hkp : posKey p = toString pid := by simp [posKey, hpp]
  have hfind1 : [e, x].find? (fun q => q.position_id == x.position_id
      && q.entry == some 0) = some e := by
    simp [hpe, hpx, he]
  have hfind2 : [x, e].find? (fun q => q.position_id == x.position_id
      && q.entry == some 0) = some e := by
    rcases hx with h | h <;> simp [hpe, hpx, he, h]
  rcases hps with rfl | rfl
  · -- snapshot contains the open position
    have hLp : getRow (posKey p) L = none := by rw [hkp]; exact hL
    rcases hds with rfl | rfl
    · show syncDeals [e, x] (processPosition now
          (syncDeals [e, x] (processPosition now L p)) p)
        = syncDeals [e, x] (processPosition now L p)
      cases hpv : p.volume with
      | none =>
        simp only [processPosition_skip (Or.inl hpv)]
        exact (syncDeals_pair_idem e x L _ he hx hke hkx hfind1 hfind2 hL).1
      | some pv =>
        by_cases hp0 : pv = 0
        · subst hp0
          simp only [processPosition_skip (Or.inr hpv)]
          exact (syncDeals_pair_idem e x L _ he hx hke hkx hfind1 hfind2 hL).1
        · have pos2 : ∀ r : TradeLog, r.trade_id = toString pid →
              processPosition now (L ++ [r]) p = L ++ [posUpd now p pv r] := by
            intro r hr
            have hr' : r.trade_id = posKey p := by rw [hkp]; exact hr
            rw [processPosition_hit hpv hp0 (getRow_append_self hLp hr'),
                updateFirst_append_self _ hLp hr']
          rw [processPosition_new hpv hp0 hLp]
          cases hev : e.volume with
          | none =>
            rw [(syncDeals_pair_append_skip e x L _ (toString pid) he hx
                hke hkx hL (by simp [hkp]) (Or.inl hev)).1,
              pos2 _ (by simp [hkp]),
              (syncDeals_pair_append_skip e x L _ (toString pid) he hx
                hke hkx hL (by simp [hkp]) (Or.inl hev)).1,
              replay_XQ]
          | some v =>
            by_cases h0 : v = 0
            · subst h0
              rw [(syncDeals_pair_append_skip e x L _ (toString pid) he hx
                  hke hkx hL (by simp [hkp]) (Or.inr hev)).1,
                pos2 _ (by simp [hkp]),
                (syncDeals_pair_append_skip e x L _ (toString pid) he hx
                  hke hkx hL (by simp [hkp]) (Or.inr hev)).1,
                replay_XQ]
            · rw [(syncDeals_pair_append e x v L _ (toString pid) he hx
                  hke hkx hL (by simp [hkp]) hev h0).1,
                pos2 _ (by simp [hkp]),
                (syncDeals_pair_append e x v L _ (toString pid) he hx
                  hke hkx hL (by simp [hkp]) hev h0).1,
                replay_XEQ]
    · show syncDeals [x, e] (processPosition now
          (syncDeals [x, e] (processPosition now L p)) p)
        = syncDeals [x, e] (processPosition now L p)
      cases hpv : p.volume with
      | none =>
        simp only [processPosition_skip (Or.inl hpv)]
        exact (syncDeals_pair_idem e x L _ he hx hke hkx hfind1 hfind2 hL).2
      | some pv =>
        by_cases hp0 : pv = 0
        · subst hp0
          simp only [processPosition_skip (Or.inr hpv)]
          exact (syncDeals_pair_idem e x L _ he hx hke hkx hfind1 hfind2 hL).2
        · have pos2 : ∀ r : TradeLog, r.trade_id = toString pid →
              processPosition now (L ++ [r]) p = L ++ [posUpd now p pv r] := by
            intro r hr
            have hr' : r.trade_id = posKey p := by rw [hkp]; exact hr
            rw [processPosition_hit hpv hp0 (getRow_append_self hLp hr'),
                updateFirst_append_self _ hLp hr']
          rw [processPosition_new hpv hp0 hLp]
          cases hev : e.volume with
          | none =>
            rw [(syncDeals_pair_append_skip e x L _ (toString pid) he hx
                hke hkx hL (by simp [hkp]) (Or.inl hev)).2,
              pos2 _ (by simp [hkp]),
              (syncDeals_pair_append_skip e x L _ (toString pid) he hx
                hke hkx hL (by simp [hkp]) (Or.inl hev)).2,
              replay_XQ]
          | some v =>
            by_cases h0 : v = 0
            · subst h0
              rw [(syncDeals_pair_append_skip e x L _ (toString pid) he hx
                  hke hkx hL (by simp [hkp]) (Or.inr hev)).2,
                pos2 _ (by simp [hkp]),
                (syncDeals_pair_append_skip e x L _ (toString pid) he hx
                  hke hkx hL (by simp [hkp]) (Or.inr hev)).2,
                replay_XQ]
            · rw [(syncDeals_pair_append e x v L _ (toString pid) he hx
                  hke hkx hL (by simp [hkp]) hev h0).2,
                pos2 _ (by simp [hkp]),
                (syncDeals_pair_append e x v L _ (toString pid) he hx
                  hke hkx hL (by simp [hkp]) hev h0).2,
                replay_EXQ]
  · -- no open position in the snapshot
    rcases hds with rfl | rfl
    · show syncDeals [e, x] (syncDeals [e, x] L) = syncDeals [e, x] L
      exact (syncDeals_pair_idem e x L _ he hx hke hkx hfind1 hfind2 hL).1
    · show syncDeals [x, e] (syncDeals [x, e] L) = syncDeals [x, e] L
      exact (syncDeals_pair_idem e x L _ he hx hke hkx hfind1 hfind2 hL).2

/-- Open position for the C2 witness (id 3000). -/
def c2Pos : Position :=
  { position_id := some 3000, ticket := some 50, volume := some (1/10),
    profit := some 1, swap := some 0, type := 0, time := 10,
    symbol := "USDJPY", price_open := 151 }

/-- Entry deal for the C2 witness. -/
def c2We : Deal :=
  { ticket := some 51, position_id := some 3000, entry := some 0, type := 0,
    volume := some (1/10), price := 151, time := 20, profit := some 0,
    swap := some 0, commission := some 0 }

/-- Exit deal for the C2 witness. -/
def c2Wx : Deal :=
  { ticket := some 52, position_id := some 3000, entry := some 1, type := 1,
    volume := some (1/10), price := 152, time := 80, profit := some 10,
    swap := some 0, commission := some 0 }

/-- Witness for `c2_amended`: a concrete one-position/one-entry/one-exit
snapshot for id 3000 on an empty ledger — the second run reproduces the
first run's ledger. -/
theorem c2_amended_witness :
    (sync_trades 5 (some [c2Pos]) (some [c2We, c2Wx])
        ((sync_trades 5 (some [c2Pos]) (some [c2We, c2Wx]) []).2)).2
      = (sync_trades 5 (some [c2Pos]) (some [c2We, c2Wx]) []).2 :=
  c2_amended 5 c2Pos c2We c2Wx 3000 [c2Pos] [c2We, c2Wx] []
    (Or.inl rfl) (Or.inl rfl) rfl (Or.inl rfl) rfl rfl rfl rfl
